import Mathlib

/-!
Verification of the `CountedEvent` synchronization primitive from
`src/octoprint/util/__init__.py`.

The class holds an integer counter `_counter`, an optional ceiling `_max`
and an underlying binary event `_event` (a `threading.Event`).  All
mutation goes through `_internal_set`, which first stores the requested
value, clamps it to `[0, max]` and keeps the binary event in step.  We
embed one instance's state as a record and each (mutex-protected, hence
atomic) method as a pure state transformer; the binary event's flag is
the `event : Bool` field.
-/

/-- State of one `CountedEvent` instance: the counter `_counter`, the
optional ceiling `_max`, and the flag of the underlying
`threading.Event` (`_event.is_set()`). -/
structure CountedEvent where
  counter : Int
  max : Option Int
  event : Bool
deriving Repr, DecidableEq

/-- Embeds `CountedEvent._internal_set(value)`: store `value` in the
counter; if it is `≤ 0`, reset the counter to `0` and clear the binary
event; otherwise clamp the counter to the ceiling (when one is present)
and set the binary event. -/
def CountedEvent.internal_set (s : CountedEvent) (value : Int) : CountedEvent :=
  if value ≤ 0 then
    ⟨0, s.max, false⟩
  else
    match s.max with
    | some m => if m < value then ⟨m, s.max, true⟩ else ⟨value, s.max, true⟩
    | none => ⟨value, s.max, true⟩

/-- Embeds `CountedEvent.__init__(value, max)`: the counter starts at 0,
the ceiling is stored, the binary event starts cleared, and the initial
value is routed through `_internal_set`. -/
def CountedEvent.init (value : Int) (max : Option Int) : CountedEvent :=
  CountedEvent.internal_set ⟨0, max, false⟩ value

/-- Embeds `CountedEvent.set()`: `_internal_set(self._counter + 1)`
under the mutex. -/
def CountedEvent.set (s : CountedEvent) : CountedEvent :=
  s.internal_set (s.counter + 1)

/-- Embeds `CountedEvent.clear(completely)`: under the mutex,
`_internal_set(0)` when `completely` holds, else
`_internal_set(self._counter - 1)`. -/
def CountedEvent.clear (s : CountedEvent) (completely : Bool) : CountedEvent :=
  if completely then s.internal_set 0 else s.internal_set (s.counter - 1)

/-- Embeds `CountedEvent.blocked()`: returns `self._counter == 0`. -/
def CountedEvent.blocked (s : CountedEvent) : Bool :=
  s.counter == 0

/-- One call in a client-visible sequence of mutating operations:
`set()`, `clear()` or `clear(completely=True)`. -/
inductive Op where
  | setOp
  | clearOp
  | clearCompletelyOp
deriving Repr, DecidableEq

/-- Runs one operation on the state. -/
def CountedEvent.apply (s : CountedEvent) : Op → CountedEvent
  | Op.setOp => s.set
  | Op.clearOp => s.clear false
  | Op.clearCompletelyOp => s.clear true

/-- Runs a sequence of operations on the state, left to right. -/
def CountedEvent.run (s : CountedEvent) (ops : List Op) : CountedEvent :=
  ops.foldl CountedEvent.apply s

/-- The ceiling is well formed as the spec demands: absent, or `≥ 0`. -/
def goodMax : Option Int → Prop
  | none => True
  | some k => 0 ≤ k

/-- The ceiling is absent or `≥ 1` (the regime in which the signaled
flag can track `counter > 0`). -/
def posMax : Option Int → Prop
  | none => True
  | some k => 1 ≤ k

/-- Modelled from the spec: the running net of sets minus non-complete
clears, where `clear(completely=True)` resets the running net to 0 at
its position in the sequence. -/
def netSetsMinusClears (ops : List Op) : Int :=
  ops.foldl
    (fun n op =>
      match op with
      | Op.setOp => n + 1
      | Op.clearOp => n - 1
      | Op.clearCompletelyOp => 0)
    0

/-- Per-operation clamped counter update with ceiling `k`: `set` takes
`c` to `min k (c + 1)`, `clear` takes `c` to `max 0 (c - 1)`, and
`clear(completely=True)` takes `c` to `0`. -/
def clampedStep (k : Int) (c : Int) : Op → Int
  | Op.setOp => min k (c + 1)
  | Op.clearOp => max 0 (c - 1)
  | Op.clearCompletelyOp => 0

/-- Left fold of the per-operation clamped update from 0. -/
def clampedNet (k : Int) (ops : List Op) : Int :=
  ops.foldl (clampedStep k) 0

theorem internal_set_max_eq (s : CountedEvent) (v : Int) :
    (s.internal_set v).max = s.max := by
  unfold CountedEvent.internal_set
  split
  · rfl
  · split
    · split <;> rfl
    · rfl

theorem internal_set_counter_nonneg (s : CountedEvent) (v : Int)
    (h : goodMax s.max) : 0 ≤ (s.internal_set v).counter := by
  unfold CountedEvent.internal_set
  split
  · exact le_refl 0
  · rename_i hv
    split
    · rename_i m hm
      rw [hm] at h
      unfold goodMax at h
      split
      · exact h
      · show 0 ≤ v
        omega
    · show 0 ≤ v
      omega

theorem internal_set_counter_le (s : CountedEvent) (v : Int) (k : Int)
    (hm : s.max = some k) (hk : 0 ≤ k) : (s.internal_set v).counter ≤ k := by
  unfold CountedEvent.internal_set
  split
  · exact hk
  · rename_i hv
    split
    · rename_i m hmm
      rw [hm] at hmm
      injection hmm with hmk
      subst hmk
      split
      · exact le_refl k
      · rename_i hlt
        show v ≤ k
        omega
    · rename_i hnone
      rw [hm] at hnone
      exact Option.noConfusion hnone

theorem internal_set_event_iff (s : CountedEvent) (v : Int)
    (h : posMax s.max) :
    ((s.internal_set v).event = true ↔ 0 < (s.internal_set v).counter) := by
  unfold CountedEvent.internal_set
  split
  · simp
  · rename_i hv
    split
    · rename_i m hm
      rw [hm] at h
      unfold posMax at h
      split
      · show (true = true ↔ 0 < m)
        simp
        omega
      · show (true = true ↔ 0 < v)
        simp
        omega
    · show (true = true ↔ 0 < v)
      simp
      omega

theorem internal_set_counter_eq (s : CountedEvent) (v : Int) :
    (s.internal_set v).counter =
      if v ≤ 0 then 0
      else
        match s.max with
        | some m => min m v
        | none => v := by
  unfold CountedEvent.internal_set
  by_cases hv : v ≤ 0
  · rw [if_pos hv, if_pos hv]
  · rw [if_neg hv, if_neg hv]
    cases hm : s.max with
    | none => rfl
    | some m =>
        show (if m < v then (⟨m, some m, true⟩ : CountedEvent)
          else ⟨v, some m, true⟩).counter = min m v
        by_cases h2 : m < v
        · rw [if_pos h2]
          show m = min m v
          rw [min_def, if_pos (le_of_lt h2)]
        · rw [if_neg h2]
          show v = min m v
          rw [min_def]
          split <;> omega

theorem internal_set_event_eq (s : CountedEvent) (v : Int) :
    (s.internal_set v).event = decide (0 < v) := by
  unfold CountedEvent.internal_set
  by_cases hv : v ≤ 0
  · rw [if_pos hv]
    show false = decide (0 < v)
    have : ¬0 < v := by omega
    simp [this]
  · rw [if_neg hv]
    have hpos : 0 < v := by omega
    cases hm : s.max with
    | none =>
        show true = decide (0 < v)
        simp [hpos]
    | some m =>
        show (if m < v then (⟨m, some m, true⟩ : CountedEvent)
          else ⟨v, some m, true⟩).event = decide (0 < v)
        by_cases h2 : m < v
        · rw [if_pos h2]
          show true = decide (0 < v)
          simp [hpos]
        · rw [if_neg h2]
          show true = decide (0 < v)
          simp [hpos]

theorem internal_set_inv (s : CountedEvent) (v : Int) (m : Option Int)
    (hs : s.max = m) (h : goodMax m) :
    (s.internal_set v).max = m ∧
    0 ≤ (s.internal_set v).counter ∧
    (∀ k, m = some k → (s.internal_set v).counter ≤ k) ∧
    (posMax m → ((s.internal_set v).event = true ↔ 0 < (s.internal_set v).counter)) := by
  subst hs
  refine ⟨internal_set_max_eq s v, internal_set_counter_nonneg s v h, ?_, ?_⟩
  · intro k hk
    refine internal_set_counter_le s v k hk ?_
    rw [hk] at h
    exact h
  · intro hp
    exact internal_set_event_iff s v hp

theorem apply_inv (s : CountedEvent) (op : Op) (m : Option Int)
    (hs : s.max = m) (h : goodMax m) :
    (s.apply op).max = m ∧
    0 ≤ (s.apply op).counter ∧
    (∀ k, m = some k → (s.apply op).counter ≤ k) ∧
    (posMax m → ((s.apply op).event = true ↔ 0 < (s.apply op).counter)) := by
  cases op with
  | setOp => exact internal_set_inv s (s.counter + 1) m hs h
  | clearOp => exact internal_set_inv s (s.counter - 1) m hs h
  | clearCompletelyOp => exact internal_set_inv s 0 m hs h

theorem run_cons (s : CountedEvent) (op : Op) (ops : List Op) :
    s.run (op :: ops) = (s.apply op).run ops := rfl

theorem run_inv_aux (m : Option Int) (h : goodMax m) :
    ∀ ops (s : CountedEvent), s.max = m → 0 ≤ s.counter →
      (∀ k, m = some k → s.counter ≤ k) →
      (posMax m → (s.event = true ↔ 0 < s.counter)) →
      ((s.run ops).max = m ∧
       0 ≤ (s.run ops).counter ∧
       (∀ k, m = some k → (s.run ops).counter ≤ k) ∧
       (posMax m → ((s.run ops).event = true ↔ 0 < (s.run ops).counter))) := by
  intro ops
  induction ops with
  | nil =>
      intro s h1 h2 h3 h4
      exact ⟨h1, h2, h3, h4⟩
  | cons op rest ih =>
      intro s h1 h2 h3 h4
      rw [run_cons]
      obtain ⟨g1, g2, g3, g4⟩ := apply_inv s op m h1 h
      exact ih (s.apply op) g1 g2 g3 g4

theorem run_inv (v : Int) (m : Option Int) (h : goodMax m) (ops : List Op) :
    ((CountedEvent.init v m).run ops).max = m ∧
    0 ≤ ((CountedEvent.init v m).run ops).counter ∧
    (∀ k, m = some k → ((CountedEvent.init v m).run ops).counter ≤ k) ∧
    (posMax m → (((CountedEvent.init v m).run ops).event = true ↔
      0 < ((CountedEvent.init v m).run ops).counter)) := by
  have base := internal_set_inv ⟨0, m, false⟩ v m rfl h
  exact run_inv_aux m h ops (CountedEvent.init v m) base.1 base.2.1 base.2.2.1 base.2.2.2

theorem set_spec (s : CountedEvent) (h0 : 0 ≤ s.counter) :
    (s.set.counter =
      match s.max with
      | some k => min k (s.counter + 1)
      | none => s.counter + 1) ∧
    s.set.event = true := by
  constructor
  · show (s.internal_set (s.counter + 1)).counter = _
    rw [internal_set_counter_eq]
    rw [if_neg (by omega)]
  · show (s.internal_set (s.counter + 1)).event = true
    rw [internal_set_event_eq]
    simp only [decide_eq_true_eq]
    omega

theorem apply_counter_clamped (k : Int) (_hk : 0 ≤ k) (s : CountedEvent) (op : Op)
    (h1 : s.max = some k) (h2 : 0 ≤ s.counter) (h3 : s.counter ≤ k) :
    (s.apply op).counter = clampedStep k s.counter op := by
  cases op with
  | setOp =>
      show (s.internal_set (s.counter + 1)).counter = min k (s.counter + 1)
      rw [internal_set_counter_eq, h1]
      rw [if_neg (by omega)]
  | clearOp =>
      show (s.internal_set (s.counter - 1)).counter = max 0 (s.counter - 1)
      rw [internal_set_counter_eq, h1]
      by_cases hc : s.counter - 1 ≤ 0
      · rw [if_pos hc, max_def]
        split <;> omega
      · rw [if_neg hc]
        show min k (s.counter - 1) = max 0 (s.counter - 1)
        rw [min_def, max_def]
        split <;> split <;> omega
  | clearCompletelyOp =>
      show (s.internal_set 0).counter = 0
      rw [internal_set_counter_eq]
      rw [if_pos (le_refl 0)]

theorem run_counter_clamped (k : Int) (hk : 0 ≤ k) :
    ∀ ops (s : CountedEvent), s.max = some k → 0 ≤ s.counter → s.counter ≤ k →
      (s.run ops).counter = ops.foldl (clampedStep k) s.counter := by
  intro ops
  induction ops with
  | nil => intro s _ _ _; rfl
  | cons op rest ih =>
      intro s h1 h2 h3
      rw [run_cons, List.foldl_cons]
      obtain ⟨g1, g2, g3, _⟩ := apply_inv s op (some k) h1 (hk : goodMax (some k))
      rw [← apply_counter_clamped k hk s op h1 h2 h3]
      exact ih (s.apply op) g1 g2 (g3 k rfl)

/-- C1 (amended): for sequences of `set()`/`clear()`/`clear(completely=True)`
applied to an instance constructed with counter 0 and a ceiling `k ≥ 0`, the
counter after the sequence equals the left fold from 0 of per-operation
clamped updates: `set` takes `c` to `min k (c + 1)`, a non-complete `clear`
takes `c` to `max 0 (c - 1)`, and `clear(completely=True)` takes `c` to 0.
Clamping happens at each step; a clamped increment or decrement is not
remembered by the end-of-sequence formula of the original claim. -/
theorem C1_counter_is_stepwise_clamped_fold (k : Int) (hk : 0 ≤ k)
    (ops : List Op) :
    ((CountedEvent.init 0 (some k)).run ops).counter = clampedNet k ops := by
  have h0 : (CountedEvent.init 0 (some k)).counter = 0 := rfl
  have hmax : (CountedEvent.init 0 (some k)).max = some k :=
    internal_set_max_eq ⟨0, some k, false⟩ 0
  have h := run_counter_clamped k hk ops (CountedEvent.init 0 (some k)) hmax
    (by rw [h0]) (by rw [h0]; exact hk)
  rw [h, h0]
  rfl

/-- C1 (counterexample): with ceiling 3 and the sequence
`clear(); set()`, the code's counter is 1 (the decrement below zero was
clamped to 0 and is not remembered), but the claimed formula
`max(0, min(max_ceiling, net_sets_minus_clears))` yields 0, since the net is
`1 - 1 = 0`. -/
theorem C1_counterexample :
    ((CountedEvent.init 0 (some 3)).run [Op.clearOp, Op.setOp]).counter = 1 ∧
    max 0 (min 3 (netSetsMinusClears [Op.clearOp, Op.setOp])) = 0 ∧
    ((CountedEvent.init 0 (some 3)).run [Op.clearOp, Op.setOp]).counter ≠
      max 0 (min 3 (netSetsMinusClears [Op.clearOp, Op.setOp])) := by
  refine ⟨rfl, rfl, ?_⟩
  decide

/-- C1 (witness): the amended statement at ceiling 3 and the sequence
`set(); set(); set(); set(); clear()`, whose stepwise-clamped fold is 2. -/
theorem C1_witness :
    (0 : Int) ≤ 3 ∧
    ((CountedEvent.init 0 (some 3)).run
        [Op.setOp, Op.setOp, Op.setOp, Op.setOp, Op.clearOp]).counter =
      clampedNet 3 [Op.setOp, Op.setOp, Op.setOp, Op.setOp, Op.clearOp] :=
  ⟨by decide,
   C1_counter_is_stepwise_clamped_fold 3 (by decide)
     [Op.setOp, Op.setOp, Op.setOp, Op.setOp, Op.clearOp]⟩

/-- C2 (amended): for every instance whose ceiling is absent or at least 1,
and every state reachable by any sequence of `set()`/`clear()` calls from any
initial value, the underlying binary event flag is set iff the counter is
positive.  The original claim included ceiling 0, where the equivalence
fails. -/
theorem C2_signaled_iff_counter_pos (v : Int) (m : Option Int)
    (hm : posMax m) (ops : List Op) :
    (((CountedEvent.init v m).run ops).event = true ↔
      0 < ((CountedEvent.init v m).run ops).counter) := by
  have hg : goodMax m := by
    cases m with
    | none => trivial
    | some k =>
        unfold posMax at hm
        unfold goodMax
        omega
  exact (run_inv v m hg ops).2.2.2 hm

/-- C2 (counterexample): with `value=0, max=0`, a single `set()` call leaves
the counter at 0 (clamped to the ceiling) but sets the binary event flag, so
the flag is set while the counter is not positive. -/
theorem C2_counterexample :
    ((CountedEvent.init 0 (some 0)).run [Op.setOp]).counter = 0 ∧
    ((CountedEvent.init 0 (some 0)).run [Op.setOp]).event = true ∧
    ¬(((CountedEvent.init 0 (some 0)).run [Op.setOp]).event = true ↔
      0 < ((CountedEvent.init 0 (some 0)).run [Op.setOp]).counter) := by
  refine ⟨rfl, rfl, ?_⟩
  decide

/-- C2 (witness): the amended statement at `value=5, max=2` after one
`set()` call. -/
theorem C2_witness :
    posMax (some 2) ∧
    (((CountedEvent.init 5 (some 2)).run [Op.setOp]).event = true ↔
      0 < ((CountedEvent.init 5 (some 2)).run [Op.setOp]).counter) :=
  ⟨by norm_num [posMax],
   C2_signaled_iff_counter_pos 5 (some 2) (by norm_num [posMax]) [Op.setOp]⟩

/-- C3: in every reachable state, `blocked()` returns true iff the counter
is 0.  In this embedding `blocked` is a pure function of the state, so it
modifies nothing. -/
theorem C3_blocked_iff_counter_zero (v : Int) (m : Option Int)
    (ops : List Op) :
    (((CountedEvent.init v m).run ops).blocked = true ↔
      ((CountedEvent.init v m).run ops).counter = 0) := by
  unfold CountedEvent.blocked
  simp

/-- C4: for an instance constructed with any initial value and a ceiling
`k ≥ 0`, in every reachable state the counter never exceeds `k`, and a
`set()` call in a state whose counter equals `k` leaves the counter at `k`:
the increment saturates and is not remembered. -/
theorem C4_counter_le_ceiling (k : Int) (hk : 0 ≤ k) (v : Int)
    (ops : List Op) :
    ((CountedEvent.init v (some k)).run ops).counter ≤ k ∧
    (((CountedEvent.init v (some k)).run ops).counter = k →
      (((CountedEvent.init v (some k)).run ops).set).counter = k) := by
  have h := run_inv v (some k) (hk : goodMax (some k)) ops
  revert h
  generalize (CountedEvent.init v (some k)).run ops = s
  intro h
  refine ⟨h.2.2.1 k rfl, ?_⟩
  intro hc
  show (s.internal_set (s.counter + 1)).counter = k
  rw [internal_set_counter_eq, h.1, hc]
  rw [if_neg (by omega)]
  show min k (k + 1) = k
  exact min_eq_left (by omega)

/-- C4 (witness): ceiling 3, four `set()` calls from 0; the counter is
at most 3, equals 3, and a further `set()` leaves it at 3. -/
theorem C4_witness :
    (0 : Int) ≤ 3 ∧
    ((CountedEvent.init 0 (some 3)).run
        [Op.setOp, Op.setOp, Op.setOp, Op.setOp]).counter ≤ 3 ∧
    (((CountedEvent.init 0 (some 3)).run
        [Op.setOp, Op.setOp, Op.setOp, Op.setOp]).set).counter = 3 := by
  have h := C4_counter_le_ceiling 3 (by decide) 0
    [Op.setOp, Op.setOp, Op.setOp, Op.setOp]
  exact ⟨by decide, h.1, h.2 (by decide)⟩

/-- C5: for every instance whose ceiling is absent or nonnegative, in every
reachable state the counter is nonnegative, and a `clear()` call (with
`completely=False`) in a state whose counter is 0 leaves the counter at 0
and the binary event flag cleared: no underflow. -/
theorem C5_counter_nonneg_no_underflow (m : Option Int) (hm : goodMax m)
    (v : Int) (ops : List Op) :
    0 ≤ ((CountedEvent.init v m).run ops).counter ∧
    (((CountedEvent.init v m).run ops).counter = 0 →
      ((((CountedEvent.init v m).run ops).clear false).counter = 0 ∧
       (((CountedEvent.init v m).run ops).clear false).event = false)) := by
  have h := run_inv v m hm ops
  revert h
  generalize (CountedEvent.init v m).run ops = s
  intro h
  refine ⟨h.2.1, ?_⟩
  intro hc
  constructor
  · show (s.internal_set (s.counter - 1)).counter = 0
    rw [internal_set_counter_eq, hc]
    rw [if_pos (by omega)]
  · show (s.internal_set (s.counter - 1)).event = false
    rw [internal_set_event_eq, hc]
    decide

/-- C5 (witness): with no ceiling and initial value 0, the empty sequence
gives counter 0, and one `clear()` keeps the counter at 0 and the flag
cleared. -/
theorem C5_witness :
    goodMax none ∧
    0 ≤ ((CountedEvent.init 0 none).run []).counter ∧
    (((CountedEvent.init 0 none).run []).clear false).counter = 0 ∧
    (((CountedEvent.init 0 none).run []).clear false).event = false := by
  have h := C5_counter_nonneg_no_underflow none trivial 0 []
  exact ⟨trivial, h.1, (h.2 rfl).1, (h.2 rfl).2⟩

/-- C6: scenario `value=0, max=3`.  After four `set()` calls the counter is
3 and `blocked()` is false; after three further `clear()` calls the counter
is 0 and `blocked()` is true; after one more `clear()` the counter is still
0 and `blocked()` is still true. -/
theorem C6_scenario :
    ((CountedEvent.init 0 (some 3)).run
        [Op.setOp, Op.setOp, Op.setOp, Op.setOp]).counter = 3 ∧
    ((CountedEvent.init 0 (some 3)).run
        [Op.setOp, Op.setOp, Op.setOp, Op.setOp]).blocked = false ∧
    ((CountedEvent.init 0 (some 3)).run
        [Op.setOp, Op.setOp, Op.setOp, Op.setOp,
         Op.clearOp, Op.clearOp, Op.clearOp]).counter = 0 ∧
    ((CountedEvent.init 0 (some 3)).run
        [Op.setOp, Op.setOp, Op.setOp, Op.setOp,
         Op.clearOp, Op.clearOp, Op.clearOp]).blocked = true ∧
    ((CountedEvent.init 0 (some 3)).run
        [Op.setOp, Op.setOp, Op.setOp, Op.setOp,
         Op.clearOp, Op.clearOp, Op.clearOp, Op.clearOp]).counter = 0 ∧
    ((CountedEvent.init 0 (some 3)).run
        [Op.setOp, Op.setOp, Op.setOp, Op.setOp,
         Op.clearOp, Op.clearOp, Op.clearOp, Op.clearOp]).blocked = true := by
  decide

/-- C7: from every state (in particular every reachable state, for any
initial value and ceiling), `clear(completely=True)` sets the counter to 0
and clears the binary event flag; in particular, constructing with
`value=2` and calling `clear(completely=True)` yields counter 0. -/
theorem C7_clear_completely_resets (v : Int) (m : Option Int)
    (ops : List Op) :
    ((((CountedEvent.init v m).run ops).clear true).counter = 0 ∧
     (((CountedEvent.init v m).run ops).clear true).event = false) ∧
    ((CountedEvent.init 2 none).clear true).counter = 0 := by
  refine ⟨⟨?_, ?_⟩, rfl⟩
  · show ((((CountedEvent.init v m).run ops)).internal_set 0).counter = 0
    rw [internal_set_counter_eq]
    rw [if_pos (le_refl 0)]
  · show ((((CountedEvent.init v m).run ops)).internal_set 0).event = false
    rw [internal_set_event_eq]
    decide

/-- C8: `set()` is total in this embedding (a pure function defined on all
states, so it cannot fail); in every reachable state of an instance with a
well-formed ceiling, it increments the counter by exactly 1 when no ceiling
is present or the counter is below the ceiling, and after `set()` the binary
event flag is set whenever the resulting counter is at least 1. -/
theorem C8_set_increments_and_signals (v : Int) (m : Option Int)
    (hm : goodMax m) (ops : List Op) :
    (m = none →
      (((CountedEvent.init v m).run ops).set).counter =
        ((CountedEvent.init v m).run ops).counter + 1) ∧
    (∀ k, m = some k →
      ((CountedEvent.init v m).run ops).counter < k →
      (((CountedEvent.init v m).run ops).set).counter =
        ((CountedEvent.init v m).run ops).counter + 1) ∧
    (0 < (((CountedEvent.init v m).run ops).set).counter →
      (((CountedEvent.init v m).run ops).set).event = true) := by
  have h := run_inv v m hm ops
  revert h
  generalize (CountedEvent.init v m).run ops = s
  intro h
  have hcnt : 0 ≤ s.counter := h.2.1
  refine ⟨?_, ?_, fun _ => (set_spec s hcnt).2⟩
  · intro hnone
    show (s.internal_set (s.counter + 1)).counter = s.counter + 1
    rw [internal_set_counter_eq, h.1, hnone]
    rw [if_neg (by omega)]
  · intro k hk hlt
    show (s.internal_set (s.counter + 1)).counter = s.counter + 1
    rw [internal_set_counter_eq, h.1, hk]
    rw [if_neg (by omega)]
    show min k (s.counter + 1) = s.counter + 1
    exact min_eq_right (by omega)

/-- C8 (witness): ceiling 5, one `set()` from 0 gives counter 1 below the
ceiling; a further `set()` increments to 2 and leaves the flag set. -/
theorem C8_witness :
    goodMax (some 5) ∧
    ((CountedEvent.init 0 (some 5)).run [Op.setOp]).counter < 5 ∧
    (((CountedEvent.init 0 (some 5)).run [Op.setOp]).set).counter =
      ((CountedEvent.init 0 (some 5)).run [Op.setOp]).counter + 1 ∧
    (((CountedEvent.init 0 (some 5)).run [Op.setOp]).set).event = true := by
  have h := C8_set_increments_and_signals 0 (some 5)
    (by norm_num [goodMax]) [Op.setOp]
  exact ⟨by norm_num [goodMax], by decide, h.2.1 5 rfl (by decide),
    h.2.2 (by decide)⟩

/-- C10: the constructor routes the initial value through the same clamping
as `set`/`clear`: the initial counter is 0 when `value ≤ 0` and
`min value max` (or `value` with no ceiling) otherwise, and the binary event
flag is set exactly when `value > 0` — including the case `max = 0`,
`value > 0`, where the counter is 0 yet the flag is set. -/
theorem C10_init_routes_through_clamp (v : Int) (m : Option Int) :
    ((CountedEvent.init v m).counter =
      if v ≤ 0 then 0
      else
        match m with
        | some k => min v k
        | none => v) ∧
    (CountedEvent.init v m).event = decide (0 < v) ∧
    ((CountedEvent.init 1 (some 0)).counter = 0 ∧
     (CountedEvent.init 1 (some 0)).event = true) := by
  refine ⟨?_, internal_set_event_eq ⟨0, m, false⟩ v, by decide⟩
  show (CountedEvent.internal_set ⟨0, m, false⟩ v).counter = _
  rw [internal_set_counter_eq]
  by_cases hv : v ≤ 0
  · rw [if_pos hv, if_pos hv]
  · rw [if_neg hv, if_neg hv]
    cases m with
    | none => rfl
    | some k =>
        show min k v = min v k
        exact min_comm k v
